import Mathlib

/-!
Verification of the llama-stack-rag services against their specification.

The repository is a set of thin Python/FastAPI services around the Llama Stack
agent SDK:
  * `k8s_diagnostics_agent/app.py` — two-phase incident-diagnosis pipeline,
  * `agent/app.py` — simple RAG agent service,
  * `mcp_agent/app.py` — MCP-tool agent service,
  * `special_project_app/monitoring/snow-bridge/app/main.py` — Alertmanager →
    ServiceNow webhook bridge.

This file shallow-embeds the functions the claims are about.  Python strings
are modelled as `List Char`; Python `None`-or-string values as
`Option (List Char)`; fallible calls to external systems as `Except` values
that are passed in as parameters; a raised-and-not-caught Python exception as
an `Except.error` result.  External library functions that the code calls
(`json.loads`, the HTTP clients) are abstracted as parameters, never
reimplemented from the spec.
-/

namespace LlamaRag

/-! ## Python string primitives (str.strip, str.lower, truthiness of `or`) -/

/-- Python's `\s` / `str.strip` whitespace over the ASCII range:
space, tab, newline, carriage return, vertical tab, form feed. -/
def pyIsSpace (c : Char) : Bool :=
  c == ' ' || c == '\t' || c == '\n' || c == '\r' || c == '\x0b' || c == '\x0c'

/-- Python `str.strip()`: drop whitespace from both ends. -/
def pyStrip (l : List Char) : List Char :=
  ((l.dropWhile pyIsSpace).reverse.dropWhile pyIsSpace).reverse

/-- Python `str.lower()` (ASCII). -/
def pyLower (l : List Char) : List Char := l.map Char.toLower

/-- Python `a or b` on optional strings: `None` and `""` are falsy. -/
def pyOrOpt (a b : Option (List Char)) : Option (List Char) :=
  match a with
  | some s => if s.isEmpty then b else some s
  | none => b

/-- Python `a or d` where `a` is an optional string and `d` a default string. -/
def pyOrDefault (a : Option (List Char)) (d : List Char) : List Char :=
  match a with
  | some s => if s.isEmpty then d else s
  | none => d

/-! ## Model selection (`select_model`)

From `k8s_diagnostics_agent/app.py` lines 49–63 and `agent/app.py`
lines 85–95.  A listed model is a typed SDK object; the code reads its
`identifier`, `model_id`, `model_type` and `provider_id` attributes with
`getattr(…, None)` defaults, so each is modelled as an optional string. -/

structure LSModel where
  identifier : Option (List Char)
  model_id : Option (List Char)
  model_type : Option (List Char)
  provider_id : Option (List Char)
deriving DecidableEq, Repr

/-- `getattr(m, "identifier", None) or getattr(m, "model_id", None)` —
the name the code both matches on and returns. -/
def modelName (m : LSModel) : Option (List Char) :=
  pyOrOpt m.identifier m.model_id

def llmStr : List Char := "llm".toList
def vllmStr : List Char := "vllm-inference".toList

def isProviderLLM (m : LSModel) : Bool :=
  decide (m.model_type = some llmStr) && decide (m.provider_id = some vllmStr)

def isLLM (m : LSModel) : Bool :=
  decide (m.model_type = some llmStr)

/-- `k8s_diagnostics_agent/app.py::select_model`.  `preferred_id` is the value
of `MODEL_ID or PREFERRED_MODEL_ID` from the environment; `models` is the
result of `client.models.list()`.  The returned name can itself be `None`
(the code returns the attribute value as-is); a raised `RuntimeError` is the
`Except.error` branch. -/
def select_model (preferred_id : Option (List Char)) (models : List LSModel) :
    Except (List Char) (Option (List Char)) :=
  let auto : Except (List Char) (Option (List Char)) :=
    match models.find? isProviderLLM with
    | some m => .ok (modelName m)
    | none =>
      match models.find? isLLM with
      | some m => .ok (modelName m)
      | none => .error "No LLM models available on Llama Stack".toList
  match preferred_id with
  | some p =>
    if p.isEmpty then auto
    else
      match models.find? (fun m => decide (modelName m = some p)) with
      | some m => .ok (modelName m)
      | none => auto
  | none => auto

/-- `agent/app.py::select_model`: no explicit configuration, provider
preference then first LLM; returns `preferred.identifier` directly. -/
def agent_select_model (models : List LSModel) :
    Except (List Char) (Option (List Char)) :=
  match models.find? isProviderLLM with
  | some m => .ok m.identifier
  | none =>
    match models.find? isLLM with
    | some m => .ok m.identifier
    | none => .error "No LLM models available on Llama Stack".toList

/-- The explicit-configuration branch does not apply: either no id is
configured, or the configured id is empty, or no listed model carries it. -/
def preferredMiss (preferred_id : Option (List Char)) (models : List LSModel) : Prop :=
  preferred_id = none ∨
    ∃ p, preferred_id = some p ∧
      (p.isEmpty = true ∨ models.find? (fun m => decide (modelName m = some p)) = none)

/-! ## Vector DB resolution (`resolve_vector_db_id`)

From `agent/app.py` lines 98–121.  The outcome of `client.vector_dbs.list()`
is a parameter: `Except.error` models the listing call raising. -/

structure VectorDB where
  identifier : Option (List Char)
deriving DecidableEq, Repr

def resolve_vector_db_id (desired : List Char)
    (listing : Except Unit (List VectorDB)) : Option (List Char) :=
  match listing with
  | .error _ => some desired
  | .ok vdbs =>
    match vdbs.find? (fun v => decide (v.identifier = some desired)) with
    | some m => m.identifier
    | none =>
      match vdbs with
      | [] => some desired
      | v0 :: _ => v0.identifier

/-! ## Theorems: model selection and vector-DB resolution -/

private lemma find?_isProviderLLM_eq_none {models : List LSModel}
    (h : models.find? isLLM = none) : models.find? isProviderLLM = none := by
  rw [List.find?_eq_none] at h ⊢
  intro x hx hpx
  exact h x hx (by
    simp only [isProviderLLM, Bool.and_eq_true, decide_eq_true_eq] at hpx
    simp [isLLM, hpx.1])

/-- C3: `select_model` is deterministic and selects in the order
explicit-configured id (if listed) > first LLM from the preferred
provider (`vllm-inference`) > first LLM > error when no LLM is listed
(the code raises `RuntimeError`, the spec's `ConfigurationError`); the
same fallback order holds for the `agent/app.py` variant, which has no
explicit-configuration step. -/
theorem select_model_follows_order :
    (∀ (p : List Char) (models : List LSModel),
      p.isEmpty = false →
      (∃ m ∈ models, modelName m = some p) →
      select_model (some p) models = .ok (some p))
  ∧ (∀ pid models m, preferredMiss pid models →
      models.find? isProviderLLM = some m →
      select_model pid models = .ok (modelName m))
  ∧ (∀ pid models m, preferredMiss pid models →
      models.find? isProviderLLM = none →
      models.find? isLLM = some m →
      select_model pid models = .ok (modelName m))
  ∧ (∀ pid models, preferredMiss pid models →
      models.find? isLLM = none →
      select_model pid models = .error "No LLM models available on Llama Stack".toList)
  ∧ (∀ models m, models.find? isProviderLLM = some m →
      agent_select_model models = .ok m.identifier)
  ∧ (∀ models m, models.find? isProviderLLM = none →
      models.find? isLLM = some m →
      agent_select_model models = .ok m.identifier)
  ∧ (∀ models, models.find? isLLM = none →
      agent_select_model models = .error "No LLM models available on Llama Stack".toList) := by
  refine ⟨?_, ?_, ?_, ?_, ?_, ?_, ?_⟩
  · intro p models hp hex
    have hsome : (models.find? (fun m => decide (modelName m = some p))).isSome := by
      rw [List.find?_isSome]
      obtain ⟨m, hm, hname⟩ := hex
      exact ⟨m, hm, by simp [hname]⟩
    obtain ⟨m', hm'⟩ := Option.isSome_iff_exists.mp hsome
    have hname' : modelName m' = some p := by
      have := List.find?_some hm'
      simpa using this
    simp [select_model, hp, hm', hname']
  · intro pid models m hmiss hfind
    rcases hmiss with h | ⟨p, hp, h⟩
    · simp [select_model, h, hfind]
    · rcases h with h | h <;> simp [select_model, hp, h, hfind]
  · intro pid models m hmiss hprov hfind
    rcases hmiss with h | ⟨p, hp, h⟩
    · simp [select_model, h, hprov, hfind]
    · rcases h with h | h <;> simp [select_model, hp, h, hprov, hfind]
  · intro pid models hmiss hllm
    have hprov := find?_isProviderLLM_eq_none hllm
    rcases hmiss with h | ⟨p, hp, h⟩
    · simp [select_model, h, hprov, hllm]
    · rcases h with h | h <;> simp [select_model, hp, h, hprov, hllm]
  · intro models m hfind
    simp [agent_select_model, hfind]
  · intro models m hprov hfind
    simp [agent_select_model, hprov, hfind]
  · intro models hllm
    simp [agent_select_model, find?_isProviderLLM_eq_none hllm, hllm]

/-- Witness for C3: a configured id wins even over a later LLM; an empty list
fails with the configuration error. -/
theorem select_model_follows_order_witness :
    select_model (some "m1".toList)
        [⟨some "m1".toList, none, some "embedding".toList, none⟩,
         ⟨some "m2".toList, none, some llmStr, some vllmStr⟩] = .ok (some "m1".toList)
  ∧ select_model none [] = .error "No LLM models available on Llama Stack".toList := by
  constructor
  · exact select_model_follows_order.1 "m1".toList _ (by decide)
      ⟨⟨some "m1".toList, none, some "embedding".toList, none⟩, by simp, by decide⟩
  · exact select_model_follows_order.2.2.2.1 none [] (Or.inl rfl) rfl

/-- C5: the retrieval-index resolver returns the desired id when it is listed,
else the first listed index, else the desired id unchanged; and a listing
failure is swallowed (the function still returns, with the desired id
unchanged). -/
theorem resolve_vector_db_id_fallback_order :
    (∀ desired vdbs, (∃ v ∈ vdbs, v.identifier = some desired) →
      resolve_vector_db_id desired (.ok vdbs) = some desired)
  ∧ (∀ desired v0 rest, (∀ v ∈ v0 :: rest, v.identifier ≠ some desired) →
      resolve_vector_db_id desired (.ok (v0 :: rest)) = v0.identifier)
  ∧ (∀ desired, resolve_vector_db_id desired (.ok []) = some desired)
  ∧ (∀ desired e, resolve_vector_db_id desired (.error e) = some desired) := by
  refine ⟨?_, ?_, ?_, ?_⟩
  · intro desired vdbs hex
    have hsome : (vdbs.find? (fun v => decide (v.identifier = some desired))).isSome := by
      rw [List.find?_isSome]
      obtain ⟨v, hv, hid⟩ := hex
      exact ⟨v, hv, by simp [hid]⟩
    obtain ⟨m, hm⟩ := Option.isSome_iff_exists.mp hsome
    have hid : m.identifier = some desired := by
      have := List.find?_some hm
      simpa using this
    simp [resolve_vector_db_id, hm, hid]
  · intro desired v0 rest hnone
    have hfind : (v0 :: rest).find? (fun v => decide (v.identifier = some desired)) = none := by
      rw [List.find?_eq_none]
      intro v hv
      simp [hnone v hv]
    simp [resolve_vector_db_id, hfind]
  · intro desired
    simp [resolve_vector_db_id]
  · intro desired e
    simp [resolve_vector_db_id]

/-- Witness for C5: exact match returned; fallback to the first listed index;
listing failure returns the desired id. -/
theorem resolve_vector_db_id_fallback_order_witness :
    resolve_vector_db_id "confluence".toList
        (.ok [⟨some "confluence".toList⟩]) = some "confluence".toList
  ∧ resolve_vector_db_id "confluence".toList
        (.ok [⟨some "other".toList⟩]) = some "other".toList
  ∧ resolve_vector_db_id "confluence".toList (.error ()) = some "confluence".toList := by
  refine ⟨?_, ?_, ?_⟩
  · exact resolve_vector_db_id_fallback_order.1 _ _ ⟨⟨some "confluence".toList⟩, by simp, rfl⟩
  · exact resolve_vector_db_id_fallback_order.2.1 _ _ _ (by decide)
  · exact resolve_vector_db_id_fallback_order.2.2.2 _ ()

/-! ## Alertmanager → ServiceNow bridge
(`special_project_app/monitoring/snow-bridge/app/main.py`)

An alert is a webhook JSON object; the fields the dedup logic reads are its
`status` and the `alertname` / `namespace` labels, each obtained with
`.get(…)` (so optional).  `namespace` is a Lean keyword, hence the field name
`nspace`. -/

structure Alert where
  status : Option (List Char)
  alertname : Option (List Char)
  nspace : Option (List Char)
deriving DecidableEq, Repr

/-- `_compute_correlation_id` (main.py lines 44–50):
`f"{namespace}:{alertname}"` with defaults `"default"` / `"Alert"`. -/
def _compute_correlation_id (a : Alert) : List Char :=
  let alertname := pyOrDefault a.alertname "Alert".toList
  let nspace := pyOrDefault a.nspace "default".toList
  nspace ++ [':'] ++ alertname

/-- `_incident_exists` (main.py lines 52–69) seen from its observable inputs:
the outcome of the ServiceNow GET.  `Except.error` models
`requests.RequestException`; an `ok` response carries the HTTP status code and
the `data.get("result")` list (`none` when the key is absent). -/
structure SnowQueryResp where
  status_code : Nat
  result : Option (List Unit)
deriving Repr

def _incident_exists (resp : Except Unit SnowQueryResp) : Bool :=
  match resp with
  | .error _ => false
  | .ok r =>
    if r.status_code / 100 ≠ 2 then false
    else decide (0 < (r.result.getD []).length)

/-- What the `POST /alerts` loop body (main.py lines 88–96) decides for one
alert, given an existence oracle for open tickets. -/
inductive AlertAction where
  | skippedNotFiring
  | skippedExisting (cid : List Char)
  | createAttempt (cid : List Char)
deriving DecidableEq, Repr

def alertAction (ticketOpen : List Char → Bool) (a : Alert) : AlertAction :=
  if pyLower (pyOrDefault a.status []) ≠ "firing".toList then .skippedNotFiring
  else
    let cid := _compute_correlation_id a
    if ticketOpen cid then .skippedExisting cid else .createAttempt cid

/-- The alerts loop run against a stubbed ticket store: `_incident_exists` is
membership of the correlation id among open tickets, and a creation attempt
succeeds and registers its id (the spec's "stubbed open-ticket lookup").
Returns the final open-ticket list and the `created` counter. -/
def processAlertsStub (alerts : List Alert) (store : List (List Char)) :
    List (List Char) × Nat :=
  alerts.foldl
    (fun acc a =>
      match alertAction (fun cid => acc.1.contains cid) a with
      | .createAttempt cid => (acc.1 ++ [cid], acc.2 + 1)
      | _ => acc)
    (store, 0)

/-- C8: each alert's correlation id is derived from its namespace and alert
name alone; two firing alerts with identical `(namespace, alertname)`
processed in sequence against the stubbed open-ticket lookup result in the
second being skipped and exactly one ticket created. -/
theorem webhook_dedup_by_correlation_id :
    (∀ a : Alert, _compute_correlation_id a =
      pyOrDefault a.nspace "default".toList ++ [':'] ++ pyOrDefault a.alertname "Alert".toList)
  ∧ (∀ st1 st2 an ns,
      pyLower (pyOrDefault st1 []) = "firing".toList →
      pyLower (pyOrDefault st2 []) = "firing".toList →
      alertAction (fun cid => (processAlertsStub [⟨st1, an, ns⟩] []).1.contains cid)
          (⟨st2, an, ns⟩ : Alert) =
          .skippedExisting (_compute_correlation_id ⟨st2, an, ns⟩)
        ∧ processAlertsStub [⟨st1, an, ns⟩, ⟨st2, an, ns⟩] [] =
          ([_compute_correlation_id ⟨st1, an, ns⟩], 1)) := by
  constructor
  · intro a
    rfl
  · intro st1 st2 an ns h1 h2
    constructor
    · simp [processAlertsStub, alertAction, h1, h2, _compute_correlation_id]
    · simp [processAlertsStub, alertAction, h1, h2, _compute_correlation_id]

/-- Witness for C8: two firing alerts for the same namespace and alert name
yield one created ticket, the second being a skip. -/
theorem webhook_dedup_by_correlation_id_witness :
    processAlertsStub
        [⟨some "firing".toList, some "PodDown".toList, some "payments".toList⟩,
         ⟨some "firing".toList, some "PodDown".toList, some "payments".toList⟩] [] =
      (["payments:PodDown".toList], 1) := by
  have h := (webhook_dedup_by_correlation_id.2
    (some "firing".toList) (some "firing".toList)
    (some "PodDown".toList) (some "payments".toList) (by decide) (by decide)).2
  simpa [_compute_correlation_id] using h

/-- C10: a failed open-ticket lookup (network error or non-2xx status)
reports "does not exist", so the bridge proceeds to a creation attempt for a
firing alert instead of skipping it. -/
theorem incident_exists_degrades_to_create :
    (_incident_exists (.error ()) = false)
  ∧ (∀ r : SnowQueryResp, r.status_code / 100 ≠ 2 → _incident_exists (.ok r) = false)
  ∧ (∀ (ticketOpen : List Char → Bool) (a : Alert),
      pyLower (pyOrDefault a.status []) = "firing".toList →
      ticketOpen (_compute_correlation_id a) = false →
      alertAction ticketOpen a = .createAttempt (_compute_correlation_id a)) := by
  refine ⟨rfl, ?_, ?_⟩
  · intro r h
    simp [_incident_exists, h]
  · intro ticketOpen a hf hopen
    simp [alertAction, hf, hopen]

/-- Witness for C10: a 500 lookup response reports "no open ticket" and the
firing alert goes on to a creation attempt. -/
theorem incident_exists_degrades_to_create_witness :
    _incident_exists (.ok ⟨500, some [(), ()]⟩) = false
  ∧ alertAction (fun _ => false)
      ⟨some "firing".toList, some "PodDown".toList, some "payments".toList⟩ =
      .createAttempt "payments:PodDown".toList := by
  constructor
  · exact incident_exists_degrades_to_create.2.1 ⟨500, some [(), ()]⟩ (by decide)
  · have h := incident_exists_degrades_to_create.2.2 (fun _ => false)
      ⟨some "firing".toList, some "PodDown".toList, some "payments".toList⟩
      (by decide) rfl
    simpa [_compute_correlation_id] using h

/-! ## Per-process model-selection count (`k8s_diagnostics_agent/app.py`)

`select_model` is not memoized.  The `/diagnose` handler (line 527) calls it
on every request, `_run_pipeline` (line 395) calls it again, and the
`@lru_cache` on `get_rag_agent` (lines 118–122) makes the RAG-agent
initialization call it once on the first request only.  The state tracks the
`get_rag_agent` cache and the number of completed `select_model` executions
along the success path of a request. -/

structure ProcState where
  ragAgentCached : Bool
  selectModelRuns : Nat
deriving DecidableEq, Repr

def initialProcState : ProcState := ⟨false, 0⟩

/-- `get_rag_agent()`: memoized with `@lru_cache(maxsize=1)`; a cache miss
runs `select_model` (line 121) and fills the cache. -/
def get_rag_agent_step (s : ProcState) : ProcState :=
  if s.ragAgentCached then s else ⟨true, s.selectModelRuns + 1⟩

/-- One successful `POST /diagnose` request: `select_model` at line 527,
again at line 395 inside `_run_pipeline`, then `get_rag_agent` at line 427. -/
def handleDiagnose (s : ProcState) : ProcState :=
  let s1 : ProcState := ⟨s.ragAgentCached, s.selectModelRuns + 1⟩
  let s2 : ProcState := ⟨s1.ragAgentCached, s1.selectModelRuns + 1⟩
  get_rag_agent_step s2

/-- The process state after `n` successful `/diagnose` requests. -/
def runDiagnoseSeq : Nat → ProcState
  | 0 => initialProcState
  | n + 1 => handleDiagnose (runDiagnoseSeq n)

/-- C9 counterexample: already a single successful `/diagnose` request
executes model selection three times, so selection is executed again after
its first completion within one process. -/
theorem select_model_runs_thrice_per_diagnose :
    (runDiagnoseSeq 1).selectModelRuns = 3 ∧ ¬ (runDiagnoseSeq 1).selectModelRuns ≤ 1 := by
  decide

/-- C9 (amended): only the cached RAG-agent initialization selects at most
once per process; each successful `/diagnose` request additionally runs
`select_model` twice, so after `n ≥ 1` requests selection has run `2n + 1`
times. -/
theorem select_model_runs_linear_in_requests :
    ∀ n : Nat, (runDiagnoseSeq n).ragAgentCached = decide (n ≠ 0)
      ∧ (runDiagnoseSeq n).selectModelRuns = 2 * n + (if n = 0 then 0 else 1) := by
  have hstep : ∀ s : ProcState, handleDiagnose s =
      if s.ragAgentCached then ⟨s.ragAgentCached, s.selectModelRuns + 2⟩
      else ⟨true, s.selectModelRuns + 3⟩ := by
    intro s
    by_cases hb : s.ragAgentCached <;>
      simp [handleDiagnose, get_rag_agent_step, hb]
  intro n
  induction n with
  | zero => decide
  | succ k ih =>
    obtain ⟨hc, hr⟩ := ih
    rw [show runDiagnoseSeq (k + 1) = handleDiagnose (runDiagnoseSeq k) from rfl, hstep]
    cases k with
    | zero =>
      rw [show runDiagnoseSeq 0 = initialProcState from rfl]
      decide
    | succ j =>
      have hc' : (runDiagnoseSeq (j + 1)).ragAgentCached = true := by simp [hc]
      rw [hc']
      refine ⟨by simp, ?_⟩
      simp only [if_true]
      rw [hr]
      simp
      omega

/-! ## Phase 1 cleanup: pseudo-tool-call stripping
(`k8s_diagnostics_agent/app.py` lines 409–421)

The code splits the findings on lines, drops every line `ln` with
`re.match(r"^\s*\[[A-Za-z_]+\(", ln)` whose `ln.strip()` ends with `")"`,
and rejoins with `"\n"` followed by a final `strip()`. -/

/-- A line-boundary character of Python `str.splitlines`. -/
def pyIsLineBreak (c : Char) : Bool :=
  c == '\n' || c == '\r' || c == '\x0b' || c == '\x0c' ||
  c == '\x1c' || c == '\x1d' || c == '\x1e' || c == '\x85' ||
  c == '\u2028' || c == '\u2029'

def pySplitlinesAux : List Char → List Char → List (List Char)
  | [], acc => if acc.isEmpty then [] else [acc.reverse]
  | '\r' :: '\n' :: rest, acc => acc.reverse :: pySplitlinesAux rest []
  | c :: rest, acc =>
    if pyIsLineBreak c then acc.reverse :: pySplitlinesAux rest []
    else pySplitlinesAux rest (c :: acc)

/-- Python `str.splitlines()` (`\r\n` counts as a single boundary and a
trailing boundary produces no extra empty line). -/
def pySplitlines (l : List Char) : List (List Char) := pySplitlinesAux l []

/-- A character of the regex class `[A-Za-z_]`. -/
def isIdentChar (c : Char) : Bool :=
  ('A' ≤ c && c ≤ 'Z') || ('a' ≤ c && c ≤ 'z') || c == '_'

/-- `re.match(r"^\s*\[[A-Za-z_]+\(", ln)`: optional leading whitespace, `[`,
a nonempty identifier run, then `(`.  (The regex is anchored and its greedy
pieces cannot backtrack: `\s` never matches `[` and `[A-Za-z_]` never
matches `(`.) -/
def pseudoCallHead (ln : List Char) : Bool :=
  ((ln.dropWhile pyIsSpace).head? == some '[') &&
    (!((ln.dropWhile pyIsSpace).tail.takeWhile isIdentChar).isEmpty &&
      (((ln.dropWhile pyIsSpace).tail.dropWhile isIdentChar).head? == some '('))

/-- The full removal condition: regex head match and `ln.strip()` ends with
`")"`. -/
def isPseudoLine (ln : List Char) : Bool :=
  pseudoCallHead ln && ((pyStrip ln).getLast? == some ')')

/-- The lines kept by the cleanup loop. -/
def cleanedLines (findings : List Char) : List (List Char) :=
  (pySplitlines findings).filter (fun ln => !isPseudoLine ln)

/-- `"\n".join(cleaned).strip()` — the final value of `mcp_findings`. -/
def stripPseudoToolCalls (findings : List Char) : List Char :=
  pyStrip (List.intercalate ['\n'] (cleanedLines findings))

/-- C4: the Phase 1 cleanup removes every line matching the pseudo-tool-call
form (whitespace, `[`, identifier, `(`, …, trailing `)` after stripping) and
keeps every other line; in particular a prose line that merely mentions a
tool name but does not start with the bracket form is always kept. -/
theorem pseudo_tool_call_lines_stripped :
    (∀ findings ln, isPseudoLine ln = true → ln ∉ cleanedLines findings)
  ∧ (∀ findings ln, ln ∈ pySplitlines findings → isPseudoLine ln = false →
      ln ∈ cleanedLines findings)
  ∧ (∀ ws name mid ws2, ws.all pyIsSpace → name ≠ [] → name.all isIdentChar →
      ws2.all pyIsSpace →
      isPseudoLine (ws ++ '[' :: (name ++ '(' :: (mid ++ [')'] ++ ws2))) = true)
  ∧ (∀ ln, (ln.dropWhile pyIsSpace).head? ≠ some '[' → isPseudoLine ln = false) := by
  refine ⟨?_, ?_, ?_, ?_⟩
  · intro findings ln hp hmem
    rcases List.mem_filter.mp hmem with ⟨-, hkeep⟩
    simp [hp] at hkeep
  · intro findings ln hmem hp
    exact List.mem_filter.mpr ⟨hmem, by simp [hp]⟩
  · intro ws name mid ws2 hws hname hid hws2
    have hwsP : ∀ c ∈ ws, pyIsSpace c := by simpa [List.all_eq_true] using hws
    have hnameP : ∀ c ∈ name, isIdentChar c := by simpa [List.all_eq_true] using hid
    have hws2P : ∀ c ∈ ws2.reverse, pyIsSpace c := by
      intro c hc
      exact (by simpa [List.all_eq_true] using hws2 : ∀ c ∈ ws2, pyIsSpace c) c
        (List.mem_reverse.mp hc)
    have hdrop : (ws ++ '[' :: (name ++ '(' :: (mid ++ [')'] ++ ws2))).dropWhile pyIsSpace
        = '[' :: (name ++ '(' :: (mid ++ [')'] ++ ws2)) := by
      rw [List.dropWhile_append_of_pos hwsP,
        List.dropWhile_cons_of_neg (by decide : ¬ pyIsSpace '[')]
    have htake : (name ++ '(' :: (mid ++ [')'] ++ ws2)).takeWhile isIdentChar = name := by
      rw [List.takeWhile_append_of_pos hnameP,
        List.takeWhile_cons_of_neg (by decide : ¬ isIdentChar '('), List.append_nil]
    have hdrop2 : (name ++ '(' :: (mid ++ [')'] ++ ws2)).dropWhile isIdentChar
        = '(' :: (mid ++ [')'] ++ ws2) := by
      rw [List.dropWhile_append_of_pos hnameP,
        List.dropWhile_cons_of_neg (by decide : ¬ isIdentChar '(')]
    have hhead : pseudoCallHead (ws ++ '[' :: (name ++ '(' :: (mid ++ [')'] ++ ws2))) = true := by
      rw [pseudoCallHead, hdrop, List.head?_cons, List.tail_cons, htake, hdrop2,
        List.head?_cons]
      have hne : name.isEmpty = false := by
        cases name with
        | nil => exact absurd rfl hname
        | cons a t => rfl
      rw [hne]
      rfl
    have hrev : ('[' :: (name ++ '(' :: (mid ++ [')'] ++ ws2))).reverse
        = ws2.reverse ++ ')' :: (mid.reverse ++ '(' :: (name.reverse ++ ['['])) := by
      simp
    have hstriplast :
        (pyStrip (ws ++ '[' :: (name ++ '(' :: (mid ++ [')'] ++ ws2)))).getLast? = some ')' := by
      rw [pyStrip, hdrop, List.getLast?_reverse, hrev,
        List.dropWhile_append_of_pos hws2P,
        List.dropWhile_cons_of_neg (by decide : ¬ pyIsSpace ')')]
      rfl
    rw [isPseudoLine, hhead, hstriplast]
    rfl
  · intro ln hhead
    have h1 : ((ln.dropWhile pyIsSpace).head? == some '[') = false :=
      beq_eq_false_iff_ne.mpr hhead
    rw [isPseudoLine, pseudoCallHead, h1]
    rfl

/-- Witness for C4: in a two-line findings text the bracketed pseudo-call is
removed and the prose line mentioning the same tool survives. -/
theorem pseudo_tool_call_lines_stripped_witness :
    isPseudoLine "  [resources_get(ns)".toList = true
  ∧ "  [resources_get(ns)".toList ∉
      cleanedLines "  [resources_get(ns)\ncalled resources_get on the svc".toList
  ∧ "called resources_get on the svc".toList ∈
      cleanedLines "  [resources_get(ns)\ncalled resources_get on the svc".toList := by
  refine ⟨by decide, ?_, ?_⟩
  · exact pseudo_tool_call_lines_stripped.1 _ _ (by decide)
  · exact pseudo_tool_call_lines_stripped.2.1 _ _ (by decide) (by decide)

/-! ## Phase 2 dual-output splitting
(`k8s_diagnostics_agent/app.py` lines 449–463)

The code runs
`re.search(r"### JSON_START\s*(\{.*\})\s*### JSON_END", raw_text, re.DOTALL)`
and, on a match `m`, sets the explanation to `raw_text[: m.start()].strip()`
and parses `m.group(1).strip()` with `json.loads`, swallowing a parse error.
The regex engine scans candidate start offsets left to right; within an
offset the greedy pieces are forced: `\s` never matches `[`/`{`/`#`, so each
`\s*` is a maximal whitespace run, and the greedy DOTALL `.*` makes the
group end at the last `}` still followed by `\s*### JSON_END`. -/

def startMarker : List Char := "### JSON_START".toList
def endMarker : List Char := "### JSON_END".toList

/-- `\s*### JSON_END` matches at the head of `l`. -/
def endMarkerAfterWs (l : List Char) : Bool :=
  endMarker.isPrefixOf (l.dropWhile pyIsSpace)

/-- Largest `j < n` satisfying `p`. -/
def findLastIdx (p : Nat → Bool) : Nat → Option Nat
  | 0 => none
  | n + 1 => if p n then some n else findLastIdx p n

/-- First success of `f` scanning `i, i+1, …` for `fuel` steps — the
left-to-right position scan of `re.search`. -/
def firstFrom {α : Type} (f : Nat → Option α) : Nat → Nat → Option α
  | _, 0 => none
  | i, fuel + 1 =>
    match f i with
    | some b => some b
    | none => firstFrom f (i + 1) fuel

/-- What remains of the candidate match at offset `i` after the literal
start marker and the greedy `\s*` run. -/
def restAfterMarker (raw : List Char) (i : Nat) : List Char :=
  ((raw.drop i).drop startMarker.length).dropWhile pyIsSpace

/-- The regex attempted at offset `i`: the literal start marker, greedy
whitespace, `{`, then the greedy DOTALL `.*` forcing the group to end at the
last `}` still followed by `\s*### JSON_END`.  Returns group 1. -/
def matchJsonAt (raw : List Char) (i : Nat) : Option (List Char) :=
  if startMarker.isPrefixOf (raw.drop i) then
    if (restAfterMarker raw i).head? == some '{' then
      match findLastIdx
          (fun j => decide ((restAfterMarker raw i).tail[j]? = some '}') &&
            endMarkerAfterWs ((restAfterMarker raw i).tail.drop (j + 1)))
          (restAfterMarker raw i).tail.length with
      | some j => some ('{' :: (restAfterMarker raw i).tail.take (j + 1))
      | none => none
    else none
  else none

/-- `re.search` over the whole raw text: leftmost matching offset, with the
group at that offset.  Returns `(m.start(), m.group(1))`. -/
def jsonSearch (raw : List Char) : Option (Nat × List Char) :=
  firstFrom (fun i => (matchJsonAt raw i).map fun g => (i, g)) 0 (raw.length + 1)

/-- The explanation/JSON split of the Phase 2 raw text.  `loads` abstracts
`json.loads`; its failure is caught by the inner `try/except` and becomes
`none`. -/
def splitRagOutput {α : Type} (loads : List Char → Except Unit α)
    (rawText : List Char) : List Char × Option α :=
  match jsonSearch rawText with
  | none => (rawText, none)
  | some (s, g) => (pyStrip (rawText.take s), (loads (pyStrip g)).toOption)

/-! Helper lemmas for the search model. -/

private lemma firstFrom_eq_some {α : Type} {f : Nat → Option α} {p : Nat} {g : α} :
    ∀ (fuel i : Nat), i ≤ p → p < i + fuel →
      (∀ j, i ≤ j → j < p → f j = none) → f p = some g →
      firstFrom f i fuel = some g := by
  intro fuel
  induction fuel with
  | zero => intro i h1 h2 _ _; omega
  | succ n ih =>
    intro i h1 h2 hnone hp
    rcases Nat.eq_or_lt_of_le h1 with rfl | hlt
    · simp only [firstFrom, hp]
    · have hfi : f i = none := hnone i (le_refl i) hlt
      simp only [firstFrom, hfi]
      exact ih (i + 1) hlt (by omega) (fun j hj1 hj2 => hnone j (by omega) hj2) hp

private lemma firstFrom_eq_none {α : Type} {f : Nat → Option α} :
    ∀ (fuel i : Nat), (∀ j, i ≤ j → j < i + fuel → f j = none) →
      firstFrom f i fuel = none := by
  intro fuel
  induction fuel with
  | zero => intro i _; rfl
  | succ n ih =>
    intro i hnone
    have hfi : f i = none := hnone i (le_refl i) (by omega)
    simp only [firstFrom, hfi]
    exact ih (i + 1) (fun j hj1 hj2 => hnone j (by omega) (by omega))

private lemma findLastIdx_eq_some {p : Nat → Bool} {j0 : Nat} :
    ∀ n, j0 < n → p j0 = true → (∀ j, j0 < j → j < n → p j = false) →
      findLastIdx p n = some j0 := by
  intro n
  induction n with
  | zero => intro h _ _; omega
  | succ m ih =>
    intro hj0 hp hmax
    rcases Nat.lt_succ_iff_lt_or_eq.mp hj0 with hlt | rfl
    · have hm : p m = false := hmax m hlt (Nat.lt_succ_self m)
      simp only [findLastIdx, hm, Bool.false_eq_true, if_false]
      exact ih hlt hp (fun j h1 h2 => hmax j h1 (by omega))
    · simp [findLastIdx, hp]

private lemma isPrefixOf_drop_of_ge {pat l : List Char} {k : Nat}
    (hpat : pat ≠ []) (hk : l.length ≤ k) : pat.isPrefixOf (l.drop k) = false := by
  rw [List.drop_eq_nil_of_le hk]
  cases pat with
  | nil => exact absurd rfl hpat
  | cons c t => rfl

private lemma isPrefixOf_append_self {l1 l2 : List Char} :
    l1.isPrefixOf (l1 ++ l2) = true := by
  rw [List.isPrefixOf_iff_prefix]
  exact List.prefix_append l1 l2

private lemma dropWhile_eq_drop (p : Char → Bool) (l : List Char) :
    l.dropWhile p = l.drop (l.takeWhile p).length := by
  induction l with
  | nil => rfl
  | cons a t ih =>
    by_cases h : p a
    · simp [List.dropWhile_cons, List.takeWhile_cons, h, ih]
    · simp [List.dropWhile_cons, List.takeWhile_cons, h]

private lemma drop_append_ge {l1 l2 : List Char} {n : Nat} (h : l1.length ≤ n) :
    (l1 ++ l2).drop n = l2.drop (n - l1.length) := by
  obtain ⟨m, rfl⟩ : ∃ m, n = l1.length + m := ⟨n - l1.length, by omega⟩
  rw [List.drop_append]
  congr 1
  omega

private lemma endMarker_not_in_drop {post : List Char}
    (hpost : ∀ k < post.length, endMarker.isPrefixOf (post.drop k) = false) :
    ∀ m, endMarker.isPrefixOf (post.drop m) = false := by
  intro m
  rcases Nat.lt_or_ge m post.length with h | h
  · exact hpost m h
  · exact isPrefixOf_drop_of_ge (by decide) h

private lemma findLastIdx_close (mid ws2 post : List Char)
    (hws2 : ws2.all pyIsSpace = true)
    (hpost : ∀ k < post.length, endMarker.isPrefixOf (post.drop k) = false) :
    findLastIdx
      (fun j => decide ((mid ++ '}' :: (ws2 ++ (endMarker ++ post)))[j]? = some '}') &&
        endMarkerAfterWs ((mid ++ '}' :: (ws2 ++ (endMarker ++ post))).drop (j + 1)))
      (mid ++ '}' :: (ws2 ++ (endMarker ++ post))).length = some mid.length := by
  have hws2P : ∀ c ∈ ws2, pyIsSpace c = true := List.all_eq_true.mp hws2
  apply findLastIdx_eq_some
  · simp
  · have h1 : (mid ++ '}' :: (ws2 ++ (endMarker ++ post)))[mid.length]? = some '}' := by
      rw [List.getElem?_append_right (le_refl _)]
      simp
    have h2 : List.drop (mid.length + 1) (mid ++ '}' :: (ws2 ++ (endMarker ++ post)))
        = ws2 ++ (endMarker ++ post) := by
      rw [List.drop_append 1]
      simp
    have h3 : endMarkerAfterWs (ws2 ++ (endMarker ++ post)) = true := by
      rw [endMarkerAfterWs, List.dropWhile_append_of_pos hws2P,
        (by decide : endMarker = '#' :: "## JSON_END".toList), List.cons_append,
        List.dropWhile_cons_of_neg (by decide), ← List.cons_append]
      exact isPrefixOf_append_self
    simp only [h1, h2, h3, Bool.and_true, decide_eq_true_eq]
  · intro j h1 h2
    obtain ⟨k, rfl⟩ : ∃ k, j = mid.length + 1 + k := ⟨j - mid.length - 1, by omega⟩
    have hTj : (mid ++ '}' :: (ws2 ++ (endMarker ++ post)))[mid.length + 1 + k]?
        = (ws2 ++ (endMarker ++ post))[k]? := by
      rw [List.getElem?_append_right (by omega : mid.length ≤ mid.length + 1 + k),
        (by omega : mid.length + 1 + k - mid.length = k + 1), List.getElem?_cons_succ]
    have hdropj : List.drop (mid.length + 1 + k + 1) (mid ++ '}' :: (ws2 ++ (endMarker ++ post))) =
        List.drop (k + 1) (ws2 ++ (endMarker ++ post)) := by
      rw [(by omega : mid.length + 1 + k + 1 = mid.length + (k + 2)), List.drop_append,
        List.drop_succ_cons]
    rcases Nat.lt_or_ge k (ws2.length + endMarker.length) with hk | hk
    · have hchar : decide ((ws2 ++ (endMarker ++ post))[k]? = some '}') = false := by
        rcases hzq : (ws2 ++ (endMarker ++ post))[k]? with _ | a
        · simp
        · have hane : a ≠ '}' := by
            rcases Nat.lt_or_ge k ws2.length with hk2 | hk2
            · rw [List.getElem?_append_left hk2] at hzq
              have hmem := List.getElem?_mem hzq
              have hsp := hws2P a hmem
              intro he
              rw [he] at hsp
              exact absurd hsp (by decide)
            · rw [List.getElem?_append_right hk2,
                List.getElem?_append_left (by omega : k - ws2.length < endMarker.length)] at hzq
              have hmem := List.getElem?_mem hzq
              intro he
              rw [he] at hmem
              exact absurd hmem (by decide)
          simp [hane]
      simp only [hTj, hdropj, hchar, Bool.false_and]
    · have h2nd : endMarkerAfterWs (List.drop (k + 1) (ws2 ++ (endMarker ++ post))) = false := by
        have hZdrop : List.drop (k + 1) (ws2 ++ (endMarker ++ post))
            = post.drop (k + 1 - ws2.length - endMarker.length) := by
          rw [drop_append_ge (by omega), drop_append_ge (by omega)]
        rw [endMarkerAfterWs, hZdrop, dropWhile_eq_drop, List.drop_drop]
        exact endMarker_not_in_drop hpost _
      simp only [hTj, hdropj, h2nd, Bool.and_false]


private lemma matchJsonAt_block (pre ws1 mid ws2 post raw : List Char)
    (hraw : raw = pre ++ (startMarker ++ (ws1 ++
      (('{' :: (mid ++ ['}'])) ++ (ws2 ++ (endMarker ++ post))))))
    (hws1 : ws1.all pyIsSpace = true) (hws2 : ws2.all pyIsSpace = true)
    (hpost : ∀ k < post.length, endMarker.isPrefixOf (post.drop k) = false) :
    matchJsonAt raw pre.length = some ('{' :: (mid ++ ['}'])) := by
  have hws1P : ∀ c ∈ ws1, pyIsSpace c = true := List.all_eq_true.mp hws1
  have hdropPre : raw.drop pre.length
      = startMarker ++ (ws1 ++ (('{' :: (mid ++ ['}'])) ++ (ws2 ++ (endMarker ++ post)))) := by
    rw [hraw]
    exact List.drop_left _ _
  have hprefix : startMarker.isPrefixOf (raw.drop pre.length) = true := by
    rw [hdropPre]
    exact isPrefixOf_append_self
  have hrest : restAfterMarker raw pre.length
      = '{' :: (mid ++ '}' :: (ws2 ++ (endMarker ++ post))) := by
    rw [restAfterMarker, hdropPre, List.drop_left,
      List.dropWhile_append_of_pos hws1P, List.cons_append,
      List.dropWhile_cons_of_neg (by decide)]
    congr 1
    simp [List.append_assoc]
  have htake : (mid ++ '}' :: (ws2 ++ (endMarker ++ post))).take (mid.length + 1)
      = mid ++ ['}'] := by
    rw [List.take_append 1]
    simp
  rw [matchJsonAt, if_pos hprefix, hrest]
  simp only [List.head?_cons, List.tail_cons, beq_self_eq_true, if_true]
  rw [findLastIdx_close mid ws2 post hws2 hpost]
  show some ('{' :: (mid ++ '}' :: (ws2 ++ (endMarker ++ post))).take (mid.length + 1))
    = some ('{' :: (mid ++ ['}']))
  rw [htake]

private lemma jsonSearch_block (pre ws1 mid ws2 post raw : List Char)
    (hraw : raw = pre ++ (startMarker ++ (ws1 ++
      (('{' :: (mid ++ ['}'])) ++ (ws2 ++ (endMarker ++ post))))))
    (hpre : ∀ i < pre.length, startMarker.isPrefixOf (raw.drop i) = false)
    (hws1 : ws1.all pyIsSpace = true) (hws2 : ws2.all pyIsSpace = true)
    (hpost : ∀ k < post.length, endMarker.isPrefixOf (post.drop k) = false) :
    jsonSearch raw = some (pre.length, '{' :: (mid ++ ['}'])) := by
  have hlen : pre.length ≤ raw.length := by
    rw [hraw, List.length_append]
    exact Nat.le_add_right _ _
  rw [jsonSearch]
  exact @firstFrom_eq_some _ _ pre.length (pre.length, '{' :: (mid ++ ['}']))
    (raw.length + 1) 0 (Nat.zero_le _) (by omega)
    (fun j _ hjp => by simp [matchJsonAt, hpre j hjp])
    (by rw [matchJsonAt_block pre ws1 mid ws2 post raw hraw hws1 hws2 hpost]; rfl)

private lemma jsonSearch_no_marker (raw : List Char)
    (hpre : ∀ i < raw.length, startMarker.isPrefixOf (raw.drop i) = false) :
    jsonSearch raw = none := by
  have hall : ∀ j, startMarker.isPrefixOf (raw.drop j) = false := by
    intro j
    rcases Nat.lt_or_ge j raw.length with h | h
    · exact hpre j h
    · exact isPrefixOf_drop_of_ge (by decide) h
  rw [jsonSearch]
  apply firstFrom_eq_none
  intro j _ _
  simp [matchJsonAt, hall j]

/-- C2 (amended): with exactly one well-formed marker block (no start marker
occurs before it, the enclosed group is brace-delimited and no end marker
occurs after the block), the returned explanation is the text before the
markers **stripped of surrounding whitespace** and the parsed object is
`json.loads` of the enclosed group; with no start marker the explanation is
the whole text and the object is absent; with malformed JSON between the
markers the object is absent and the split still returns (the parse failure
is caught). -/
theorem json_block_split (α : Type) (loads : List Char → Except Unit α) :
    (∀ pre ws1 mid ws2 post raw j,
      raw = pre ++ (startMarker ++ (ws1 ++
        (('{' :: (mid ++ ['}'])) ++ (ws2 ++ (endMarker ++ post))))) →
      (∀ i < pre.length, startMarker.isPrefixOf (raw.drop i) = false) →
      ws1.all pyIsSpace = true → ws2.all pyIsSpace = true →
      (∀ k < post.length, endMarker.isPrefixOf (post.drop k) = false) →
      loads (pyStrip ('{' :: (mid ++ ['}']))) = .ok j →
      splitRagOutput loads raw = (pyStrip pre, some j))
  ∧ (∀ raw, (∀ i < raw.length, startMarker.isPrefixOf (raw.drop i) = false) →
      splitRagOutput loads raw = (raw, none))
  ∧ (∀ pre ws1 mid ws2 post raw e,
      raw = pre ++ (startMarker ++ (ws1 ++
        (('{' :: (mid ++ ['}'])) ++ (ws2 ++ (endMarker ++ post))))) →
      (∀ i < pre.length, startMarker.isPrefixOf (raw.drop i) = false) →
      ws1.all pyIsSpace = true → ws2.all pyIsSpace = true →
      (∀ k < post.length, endMarker.isPrefixOf (post.drop k) = false) →
      loads (pyStrip ('{' :: (mid ++ ['}']))) = .error e →
      splitRagOutput loads raw = (pyStrip pre, none)) := by
  refine ⟨?_, ?_, ?_⟩
  · intro pre ws1 mid ws2 post raw j hraw hpre hws1 hws2 hpost hloads
    have htake : raw.take pre.length = pre := by
      rw [hraw]
      exact List.take_left _ _
    rw [splitRagOutput, jsonSearch_block pre ws1 mid ws2 post raw hraw hpre hws1 hws2 hpost]
    show (pyStrip (raw.take pre.length), (loads (pyStrip ('{' :: (mid ++ ['}'])))).toOption)
      = (pyStrip pre, some j)
    rw [htake, hloads]
    rfl
  · intro raw hpre
    rw [splitRagOutput, jsonSearch_no_marker raw hpre]
  · intro pre ws1 mid ws2 post raw e hraw hpre hws1 hws2 hpost hloads
    have htake : raw.take pre.length = pre := by
      rw [hraw]
      exact List.take_left _ _
    rw [splitRagOutput, jsonSearch_block pre ws1 mid ws2 post raw hraw hpre hws1 hws2 hpost]
    show (pyStrip (raw.take pre.length), (loads (pyStrip ('{' :: (mid ++ ['}'])))).toOption)
      = (pyStrip pre, none)
    rw [htake, hloads]
    rfl

/-- C2 counterexample: on the text `"abc\n### JSON_START\n\x7b\x7d\n### JSON_END"`
the explanation returned by the split is `"abc"`, not the text before the
markers (`"abc\n"`): the code strips it. -/
theorem json_block_split_strips_explanation :
    (splitRagOutput (fun _ => (Except.error () : Except Unit Unit))
        "abc\n### JSON_START\n\x7b\x7d\n### JSON_END".toList).1 = "abc".toList
  ∧ (splitRagOutput (fun _ => (Except.error () : Except Unit Unit))
        "abc\n### JSON_START\n\x7b\x7d\n### JSON_END".toList).1 ≠ "abc\n".toList := by
  constructor
  · decide
  · decide

/-- Witness for C2 (amended): a concrete success split, exercising marker
detection, greedy group capture and the `loads` success path. -/
theorem json_block_split_witness :
    splitRagOutput
      (fun s => if s = '{' :: ("\"a\": 1".toList ++ ['}']) then Except.ok (1 : Nat)
        else Except.error ())
      ("explanation\n".toList ++ (startMarker ++ ("\n".toList ++
        (('{' :: ("\"a\": 1".toList ++ ['}'])) ++ ("\n".toList ++ (endMarker ++ []))))))
      = (pyStrip "explanation\n".toList, some 1) := by
  exact (json_block_split Nat
      (fun s => if s = '{' :: ("\"a\": 1".toList ++ ['}']) then Except.ok (1 : Nat)
        else Except.error ())).1
    "explanation\n".toList "\n".toList "\"a\": 1".toList "\n".toList [] _ 1
    rfl (by decide) (by decide) (by decide)
    (fun k hk => absurd hk (by simp)) rfl

/-! ## Two-phase pipeline control flow (`_run_pipeline`, lines 369–506)

The route body is two sequential `try/except` blocks.  `phase1` is the
outcome of the whole Phase 1 block (question derivation, model selection,
the MCP `responses.create` call and text extraction): `Except.error`
carries the formatted exception text `{exc}` raised anywhere inside it,
`Except.ok` the extracted text before the final `.strip()` and cleanup.
`phase2` is the outcome of the Phase 2 block (session and `create_turn`
against the RAG agent plus raw-text extraction), a function of the
Phase 1 findings it receives. -/

structure DiagResult (α : Type) where
  mcp_findings : List Char
  rag_explanation : List Char
  output_as_json : Option α
deriving Repr

inductive PipelineOutcome (α : Type) where
  | httpError (status : Nat) (detail : List Char)
  | ok (r : DiagResult α)
deriving Repr

def run_pipeline {α : Type} (loads : List Char → Except Unit α)
    (phase1 : Except (List Char) (List Char))
    (phase2 : List Char → Except (List Char) (List Char)) : PipelineOutcome α :=
  match phase1 with
  | .error exc => .httpError 500 ("MCP diagnostics failed: ".toList ++ exc)
  | .ok extracted =>
    let mcp_findings := stripPseudoToolCalls (pyStrip extracted)
    match phase2 mcp_findings with
    | .error exc => .httpError 500 ("RAG correlation failed: ".toList ++ exc)
    | .ok raw0 =>
      let split := splitRagOutput loads (pyStrip raw0)
      .ok ⟨mcp_findings, split.1, split.2⟩

/-- C6: a Phase 1 exception aborts the pipeline with a 500 error tagged
`"MCP diagnostics failed: …"`; a Phase 2 exception aborts with
`"RAG correlation failed: …"`; and Phase 1 success followed by a Phase 2
failure never yields a success result — the whole request fails. -/
theorem pipeline_phase_tagged_failures (α : Type) :
    (∀ (loads : List Char → Except Unit α) phase2 e,
      run_pipeline loads (.error e) phase2 =
        .httpError 500 ("MCP diagnostics failed: ".toList ++ e))
  ∧ (∀ (loads : List Char → Except Unit α) extracted phase2 e,
      phase2 (stripPseudoToolCalls (pyStrip extracted)) = .error e →
      run_pipeline loads (.ok extracted) phase2 =
        .httpError 500 ("RAG correlation failed: ".toList ++ e))
  ∧ (∀ (loads : List Char → Except Unit α) extracted phase2 e,
      phase2 (stripPseudoToolCalls (pyStrip extracted)) = .error e →
      ∀ r, run_pipeline loads (.ok extracted) phase2 ≠ .ok r) := by
  refine ⟨?_, ?_, ?_⟩
  · intro loads phase2 e
    rfl
  · intro loads extracted phase2 e h2
    rw [run_pipeline]
    simp only [h2]
  · intro loads extracted phase2 e h2 r
    rw [run_pipeline]
    simp only [h2]
    intro hcon
    exact PipelineOutcome.noConfusion hcon

/-- Witness for C6: a concrete Phase 1 success followed by a Phase 2 failure
surfaces the phase-2-tagged 500 error. -/
theorem pipeline_phase_tagged_failures_witness :
    run_pipeline (fun _ => (Except.error () : Except Unit Unit))
      (.ok "findings".toList) (fun _ => .error "boom".toList) =
      .httpError 500 ("RAG correlation failed: ".toList ++ "boom".toList) := by
  exact (pipeline_phase_tagged_failures Unit).2.1 _ "findings".toList _ "boom".toList rfl

/-! ## The polymorphic response value and the text extractor
(`k8s_diagnostics_agent/app.py` lines 89–115)

`extract_output_text` receives an arbitrary Python value: a typed SDK object
(attributes), a mapping, a string, …  `PyVal` models exactly those shapes:
`obj` carries an attribute map, `dict` a mapping.  Exceptions raised by an
operation (`reversed` / iteration on a non-sequence, `.get` on a non-mapping)
are `Except.error` with the Python exception class name. -/

inductive PyVal where
  | str : List Char → PyVal
  | list : List PyVal → PyVal
  | dict : List (List Char × PyVal) → PyVal
  | obj : List (List Char × PyVal) → PyVal
  | none : PyVal
deriving Repr

/-- Python truthiness for the modelled shapes (a plain SDK object is truthy). -/
def pyTruthy : PyVal → Bool
  | .str s => !s.isEmpty
  | .list l => !l.isEmpty
  | .dict d => !d.isEmpty
  | .obj _ => true
  | .none => false

def lookupAssoc (kvs : List (List Char × PyVal)) (k : List Char) : Option PyVal :=
  match kvs.find? (fun kv => decide (kv.1 = k)) with
  | some kv => some kv.2
  | Option.none => Option.none

/-- `hasattr(v, name)`: only the typed-object shape has attributes (a Python
`dict`/`str`/`list` has none of the attribute names this code probes). -/
def hasattrB : PyVal → List Char → Bool
  | .obj attrs, name => (lookupAssoc attrs name).isSome
  | _, _ => false

/-- `getattr(v, name, dflt)`. -/
def getattrD (v : PyVal) (name : List Char) (dflt : PyVal) : PyVal :=
  match v with
  | .obj attrs => (lookupAssoc attrs name).getD dflt
  | _ => dflt

/-- `mapping.get(k, dflt)`. -/
def dictGet (kvs : List (List Char × PyVal)) (k : List Char) (dflt : PyVal) : PyVal :=
  (lookupAssoc kvs k).getD dflt

def isStrB : PyVal → Bool
  | .str _ => true
  | _ => false

def isListB : PyVal → Bool
  | .list _ => true
  | _ => false

/-- Python `x == "message"`: true exactly for the equal string. -/
def isMessageTag : PyVal → Bool
  | .str s => decide (s = "message".toList)
  | _ => false

/-- Python `iter(x)`: lists iterate their items, strings their characters
(as one-character strings), mappings their keys; other values raise
`TypeError`. -/
def pyIter : PyVal → Except (List Char) (List PyVal)
  | .list l => .ok l
  | .str s => .ok (s.map fun c => .str [c])
  | .dict kvs => .ok (kvs.map fun kv => .str kv.1)
  | _ => .error "TypeError".toList

/-- Python `reversed(x)` (a `TypeError` on a non-sequence; mapping views are
reversible since Python 3.8). -/
def pyRevIter (v : PyVal) : Except (List Char) (List PyVal) :=
  match pyIter v with
  | .ok l => .ok l.reverse
  | .error e => .error e

/-- `repr` of a string, for strings without quotes/escapes (the only ones the
theorems below use). -/
def pyQuoteStr (s : List Char) : List Char :=
  Char.ofNat 39 :: (s ++ [Char.ofNat 39])

/-- Python `repr`, with the SDK object's own (opaque) repr as a placeholder. -/
def pyRepr : PyVal → List Char
  | .str s => pyQuoteStr s
  | .none => "None".toList
  | .obj _ => "<object>".toList
  | .list xs => '[' :: (List.intercalate ", ".toList (xs.attach.map fun x => pyRepr x.1) ++ [']'])
  | .dict kvs => '{' :: (List.intercalate ", ".toList
      (kvs.attach.map fun kv => pyQuoteStr kv.1.1 ++ (':' :: ' ' :: pyRepr kv.1.2)) ++ ['}'])
decreasing_by
  · have := List.sizeOf_lt_of_mem x.2
    simp_wf
    omega
  · have h1 := List.sizeOf_lt_of_mem kv.2
    have h2 : sizeOf kv.1 = 1 + sizeOf kv.1.1 + sizeOf kv.1.2 := by
      obtain ⟨⟨a, b⟩, hmem⟩ := kv
      simp
    simp_wf
    omega

/-- Python `str(x)`: identity on strings, `repr` otherwise. -/
def pyStr : PyVal → List Char
  | .str s => s
  | v => pyRepr v

/-- Attribute branch, inner loop (lines 96–99): first truthy `text`
attribute among the content items. -/
def findTextAttr (cs : List PyVal) : Option PyVal :=
  cs.findSome? fun c =>
    let t := getattrD c "text".toList PyVal.none
    if pyTruthy t then some t else Option.none

/-- Attribute branch, outer loop (lines 92–99), on the already-reversed
output items; iteration of a non-iterable `content` raises. -/
def scanItemsAttr : List PyVal → Except (List Char) (Option PyVal)
  | [] => .ok Option.none
  | item :: rest =>
    let itemType := getattrD item "type".toList PyVal.none
    let contentList := getattrD item "content".toList PyVal.none
    if isMessageTag itemType && pyTruthy contentList then
      match pyIter contentList with
      | .error e => .error e
      | .ok cs =>
        match findTextAttr cs with
        | some t => .ok (some t)
        | Option.none => scanItemsAttr rest
    else scanItemsAttr rest

/-- The whole `try:` body (lines 90–103): `some` is an early `return`,
`none` is fall-through, `Except.error` an exception (swallowed by the
`except` at lines 104–105). -/
def extractTryBody (result : PyVal) : Except (List Char) (Option PyVal) :=
  let step1 : Except (List Char) (Option PyVal) :=
    if hasattrB result "output".toList && pyTruthy (getattrD result "output".toList PyVal.none) then
      match pyRevIter (getattrD result "output".toList PyVal.none) with
      | .error e => .error e
      | .ok items => scanItemsAttr items
    else .ok Option.none
  match step1 with
  | .error e => .error e
  | .ok (some t) => .ok (some t)
  | .ok Option.none =>
    if hasattrB result "output_text".toList then
      let ot := getattrD result "output_text".toList PyVal.none
      if isStrB ot && pyTruthy ot then .ok (some ot) else .ok Option.none
    else .ok Option.none

/-- Mapping branch, inner loop (lines 111–114): `c.get("text")` raises
`AttributeError` for a non-mapping content item. -/
def findTextDict : List PyVal → Except (List Char) (Option PyVal)
  | [] => .ok Option.none
  | c :: rest =>
    match c with
    | .dict kvs =>
      let t := dictGet kvs "text".toList PyVal.none
      if pyTruthy t then .ok (some t) else findTextDict rest
    | _ => .error "AttributeError".toList

/-- Mapping branch, outer loop (lines 109–114), on the already-reversed
output items: `item.get("type")` raises `AttributeError` for a non-mapping
item; `item.get("content", [])` defaults to an empty list and its iteration
raises `TypeError` when non-iterable. -/
def scanItemsDict : List PyVal → Except (List Char) (Option PyVal)
  | [] => .ok Option.none
  | item :: rest =>
    match item with
    | .dict kvs =>
      if isMessageTag (dictGet kvs "type".toList PyVal.none) then
        match pyIter (dictGet kvs "content".toList (.list [])) with
        | .error e => .error e
        | .ok cs =>
          match findTextDict cs with
          | .error e => .error e
          | .ok (some t) => .ok (some t)
          | .ok Option.none => scanItemsDict rest
      else scanItemsDict rest
    | _ => .error "AttributeError".toList

/-- Mapping branch (lines 106–114) — crucially NOT inside the `try/except`. -/
def extractDictPhase : PyVal → Except (List Char) (Option PyVal)
  | .dict kvs =>
    match dictGet kvs "output".toList PyVal.none with
    | .list items => scanItemsDict items.reverse
    | _ => .ok Option.none
  | _ => .ok Option.none

/-- `extract_output_text` (lines 89–115).  An `Except.error` is an exception
escaping the function — only the mapping branch can produce one, because it
sits outside the `try/except`. -/
def extract_output_text (result : PyVal) : Except (List Char) PyVal :=
  match extractTryBody result with
  | .ok (some t) => .ok t
  | _ =>
    match extractDictPhase result with
    | .error e => .error e
    | .ok (some t) => .ok t
    | .ok Option.none => .ok (.str (pyStr result))

/-- C1: the extractor is NOT total.  The mapping branch sits outside the
`try/except`, so the mapping `{"output": ["x"]}` raises an uncaught
`AttributeError` (`'str' object has no attribute 'get'`) instead of
returning a string; a bare string input, by contrast, is returned as-is. -/
theorem extract_output_text_raises_on_malformed_mapping :
    extract_output_text (.dict [("output".toList, .list [.str "x".toList])])
      = .error "AttributeError".toList
  ∧ (∀ s, extract_output_text (.str s) = .ok (.str s)) := by
  constructor
  · rfl
  · intro s
    rfl

private lemma extract_dict_eq (kvs : List (List Char × PyVal)) :
    extract_output_text (.dict kvs)
      = match extractDictPhase (.dict kvs) with
        | .error e => .error e
        | .ok (some t) => .ok t
        | .ok Option.none => .ok (.str (pyStr (.dict kvs))) := rfl

/-- C7 counterexample: for the mapping `{"output_text": "hello"}` the
extractor does not return `"hello"` — the mapping branch never consults
`output_text`, so the call falls through to `str(result)`. -/
theorem extract_mapping_ignores_output_text :
    extract_output_text (.dict [("output_text".toList, .str "hello".toList)])
      = .ok (.str (pyStr (.dict [("output_text".toList, .str "hello".toList)])))
  ∧ extract_output_text (.dict [("output_text".toList, .str "hello".toList)])
      ≠ .ok (.str "hello".toList) := by
  refine ⟨rfl, ?_⟩
  intro h
  have h0 : extract_output_text (.dict [("output_text".toList, .str "hello".toList)])
      = .ok (.str (pyStr (.dict [("output_text".toList, .str "hello".toList)]))) := rfl
  rw [h0] at h
  have h1 : pyStr (.dict [("output_text".toList, .str "hello".toList)]) = "hello".toList :=
    PyVal.str.inj (Except.ok.inj h)
  have h2 : (pyStr (.dict [("output_text".toList, .str "hello".toList)])).head? = some '{' := by
    show (pyRepr (.dict [("output_text".toList, .str "hello".toList)])).head? = some '{'
    rw [pyRepr]
    simp
  rw [h1] at h2
  exact absurd h2 (by decide)

/-- C7 (amended): on a mapping the extractor repeats only the FIRST lookup
step against the mapping's keys — the from-the-end scan of a list-valued
`output` entry for a `"message"` item with truthy text; a mapping's
`output_text` entry is never consulted, and without a list-valued `output`
entry the extractor falls back to stringifying the whole mapping. -/
theorem extract_mapping_output_scan_only :
    (∀ kvs items t, dictGet kvs "output".toList PyVal.none = .list items →
      scanItemsDict items.reverse = .ok (some t) →
      extract_output_text (.dict kvs) = .ok t)
  ∧ (∀ kvs items, dictGet kvs "output".toList PyVal.none = .list items →
      scanItemsDict items.reverse = .ok Option.none →
      extract_output_text (.dict kvs) = .ok (.str (pyStr (.dict kvs))))
  ∧ (∀ kvs items e, dictGet kvs "output".toList PyVal.none = .list items →
      scanItemsDict items.reverse = .error e →
      extract_output_text (.dict kvs) = .error e)
  ∧ (∀ kvs, isListB (dictGet kvs "output".toList PyVal.none) = false →
      extract_output_text (.dict kvs) = .ok (.str (pyStr (.dict kvs)))) := by
  have hphase : ∀ kvs items, dictGet kvs "output".toList PyVal.none = .list items →
      extractDictPhase (.dict kvs) = scanItemsDict items.reverse := by
    intro kvs items h1
    show (match dictGet kvs "output".toList PyVal.none with
      | .list its => scanItemsDict its.reverse
      | _ => .ok Option.none) = scanItemsDict items.reverse
    rw [h1]
  refine ⟨?_, ?_, ?_, ?_⟩
  · intro kvs items t h1 h2
    rw [extract_dict_eq, hphase kvs items h1, h2]
  · intro kvs items h1 h2
    rw [extract_dict_eq, hphase kvs items h1, h2]
  · intro kvs items e h1 h2
    rw [extract_dict_eq, hphase kvs items h1, h2]
  · intro kvs h
    have hd : extractDictPhase (.dict kvs) = .ok Option.none := by
      show (match dictGet kvs "output".toList PyVal.none with
        | .list its => scanItemsDict its.reverse
        | _ => .ok Option.none) = .ok Option.none
      cases hv : dictGet kvs "output".toList PyVal.none with
      | str s => rfl
      | list its =>
        rw [hv] at h
        exact absurd h (by simp [isListB])
      | dict kvs2 => rfl
      | obj attrs => rfl
      | none => rfl
    rw [extract_dict_eq, hd]

/-- Witness for C7 (amended): a mapping with a well-formed `output` list
yields the message item's text. -/
theorem extract_mapping_output_scan_only_witness :
    extract_output_text (.dict [("output".toList, .list
        [.dict [("type".toList, .str "message".toList),
                ("content".toList, .list [.dict [("text".toList, .str "hi".toList)]])]])])
      = .ok (.str "hi".toList) := by
  exact extract_mapping_output_scan_only.1
    [("output".toList, .list
        [.dict [("type".toList, .str "message".toList),
                ("content".toList, .list [.dict [("text".toList, .str "hi".toList)]])]])]
    [.dict [("type".toList, .str "message".toList),
            ("content".toList, .list [.dict [("text".toList, .str "hi".toList)]])]]
    (.str "hi".toList) rfl rfl

end LlamaRag
